import Mathlib

/-
Verification of the formix repository's core protocol and state machine
against its specification.

The Python source is shallowly embedded: Python ints become `Int`
(Python's `%` on a positive modulus agrees with `Int.emod`), dicts with
insertion order and last-writer-wins become association lists, fallible
code returns `Except String`, and the `random.randint` draws of the
secret-sharing splitter are passed in explicitly as a function from draw
index to drawn value.
-/

set_option maxHeartbeats 1000000

namespace Formix

namespace SecretSharing

/-- Ring modulus of the additive secret-sharing scheme:
`SecretSharing.MODULUS = 2**32` (src/formix/protocols/secret_sharing.py). -/
def MODULUS : Int := 2 ^ 32

/-- Embedding of `SecretSharing.create_shares` (secret_sharing.py lines 17-49).
The Python code draws `num_shares - 1` values with
`random.randint(0, MODULUS - 1)`; the draws are supplied here explicitly by
`rand` (the i-th loop iteration uses `rand i`).  The running
`sum_shares = (sum_shares + share) % MODULUS` accumulator and the final
`last_share = (secret - sum_shares) % MODULUS` follow the source; the
out-of-range guard raises `ValueError`, embedded as `Except.error`.
The source's self-check `assert reconstruct_secret(shares) == secret` always
succeeds (proved below) and is not modelled as a failure path. -/
def create_shares (secret : Int) (num_shares : Nat) (rand : Nat → Int) :
    Except String (List Int) :=
  if 0 ≤ secret ∧ secret < MODULUS then
    let randoms := (List.range (num_shares - 1)).map rand
    let sum_shares := randoms.foldl (fun s x => (s + x) % MODULUS) 0
    Except.ok (randoms ++ [(secret - sum_shares) % MODULUS])
  else
    Except.error "Secret must be in range [0, 4294967296)"

/-- Embedding of `SecretSharing.reconstruct_secret` (secret_sharing.py lines
51-67): error on an empty share list, otherwise `sum(shares) % MODULUS`. -/
def reconstruct_secret (shares : List Int) : Except String Int :=
  if shares.isEmpty then Except.error "Cannot reconstruct from empty shares"
  else Except.ok (shares.sum % MODULUS)

/-- Embedding of `SecretSharing.add_shares` (secret_sharing.py lines 69-95):
error on the empty list, error unless all share vectors have the length of the
first, otherwise the componentwise sums modulo `MODULUS`. -/
def add_shares (shares_list : List (List Int)) : Except String (List Int) :=
  match shares_list with
  | [] => Except.error "Cannot add empty list of shares"
  | first :: rest =>
    if (first :: rest).all (fun shares => shares.length = first.length) then
      Except.ok ((List.range first.length).map
        (fun i => ((first :: rest).map (fun shares => shares.getD i 0)).sum % MODULUS))
    else
      Except.error "All share sets must have the same number of shares"

/-- Embedding of `SecretSharing.verify_share_range` (secret_sharing.py lines
97-100): `0 <= share < MODULUS`. -/
def verify_share_range (share : Int) : Bool :=
  decide (0 ≤ share ∧ share < MODULUS)

/-- C2: for every `v` with `0 ≤ v < 2^32` and every choice of the random
coordinates drawn by the split, `create_shares v 3` succeeds with a list of 3
ring elements whose sum is congruent to `v` modulo `2^32`, and
`reconstruct_secret` of that list returns exactly `v`. -/
theorem create_shares_reconstruct_roundtrip (v : Int) (rand : Nat → Int)
    (hv0 : 0 ≤ v) (hvM : v < MODULUS)
    (hr : ∀ i, 0 ≤ rand i ∧ rand i < MODULUS) :
    ∃ shares, create_shares v 3 rand = Except.ok shares ∧
      shares.length = 3 ∧
      (∀ s ∈ shares, 0 ≤ s ∧ s < MODULUS) ∧
      shares.sum % MODULUS = v ∧
      reconstruct_secret shares = Except.ok v := by
  have h0 := hr 0
  have h1 := hr 1
  have hM : MODULUS = 4294967296 := by decide
  have hkey : (rand 0 + (rand 1 +
      (v - (rand 0 + rand 1) % MODULUS) % MODULUS)) % MODULUS = v := by
    rw [hM] at hvM ⊢
    omega
  refine ⟨[rand 0, rand 1,
      (v - (((0 + rand 0) % MODULUS + rand 1) % MODULUS)) % MODULUS], ?_, rfl, ?_, ?_, ?_⟩
  · simp [create_shares, hv0, hvM, List.range_succ, List.foldl]
  · intro s hs
    simp only [List.mem_cons, List.not_mem_nil, or_false] at hs
    rcases hs with h | h | h <;> subst h
    · exact h0
    · exact h1
    · constructor
      · apply Int.emod_nonneg
        rw [hM]
        norm_num
      · apply Int.emod_lt_of_pos
        rw [hM]
        norm_num
  · simpa [List.sum_cons, List.sum_nil] using hkey
  · simp [reconstruct_secret, List.sum_cons, List.sum_nil, hkey]

/-- Witness for C2 at `v = 42` with constant draw `7`. -/
theorem create_shares_reconstruct_roundtrip_witness :
    ∃ shares, create_shares 42 3 (fun _ => 7) = Except.ok shares ∧
      shares.length = 3 ∧
      (∀ s ∈ shares, 0 ≤ s ∧ s < MODULUS) ∧
      shares.sum % MODULUS = 42 ∧
      reconstruct_secret shares = Except.ok 42 :=
  create_shares_reconstruct_roundtrip 42 (fun _ => 7)
    (by decide) (by decide)
    (fun _ => show (0 : Int) ≤ 7 ∧ (7 : Int) < MODULUS by decide)

lemma reconstruct_secret_ne_nil (l : List Int) (h : l ≠ []) :
    reconstruct_secret l = Except.ok (l.sum % MODULUS) := by
  cases l with
  | nil => exact absurd rfl h
  | cons a t => rfl

lemma sum_map_add (l : List Nat) (f g : Nat → Int) :
    (l.map (fun i => f i + g i)).sum = (l.map f).sum + (l.map g).sum := by
  induction l with
  | nil => simp
  | cons a t ih =>
    simp only [List.map_cons, List.sum_cons, ih]
    ring

lemma sum_map_emod (l : List Int) :
    (l.map (fun x => x % MODULUS)).sum % MODULUS = l.sum % MODULUS := by
  induction l with
  | nil => rfl
  | cons a t ih =>
    simp only [List.map_cons, List.sum_cons]
    rw [Int.add_emod, ih, Int.emod_emod_of_dvd _ dvd_rfl, ← Int.add_emod]

lemma sum_sum_comm (l1 : List Nat) (vecs : List (List Int)) :
    (l1.map (fun i => (vecs.map (fun σ => σ.getD i 0)).sum)).sum
      = (vecs.map (fun σ => (l1.map (fun i => σ.getD i 0)).sum)).sum := by
  induction vecs with
  | nil =>
    simp only [List.map_nil, List.sum_nil]
    induction l1 with
    | nil => rfl
    | cons a t ih => simp
  | cons σ σs ih =>
    simp only [List.map_cons, List.sum_cons, ← ih]
    exact sum_map_add l1 _ _

lemma map_getD_range (σ : List Int) :
    (List.range σ.length).map (fun i => σ.getD i 0) = σ := by
  induction σ with
  | nil => rfl
  | cons a t ih =>
    rw [List.length_cons, List.range_succ_eq_map, List.map_cons, List.map_map]
    show (a :: t).getD 0 0 :: (List.range t.length).map (fun i => t.getD i 0) = a :: t
    rw [ih]
    rfl

lemma forall₂_lengths (secrets : List Int) (vecs : List (List Int)) (m : Nat)
    (h : List.Forall₂ (fun v σ => σ.length = m ∧ σ.sum % MODULUS = v) secrets vecs) :
    ∀ σ ∈ vecs, σ.length = m := by
  induction h with
  | nil => simp
  | cons hvσ htail ih =>
    intro σ hσ
    rcases List.mem_cons.mp hσ with rfl | hσ'
    · exact hvσ.1
    · exact ih σ hσ'

lemma forall₂_sums (secrets : List Int) (vecs : List (List Int)) (m : Nat)
    (h : List.Forall₂ (fun v σ => σ.length = m ∧ σ.sum % MODULUS = v) secrets vecs) :
    (vecs.map List.sum).sum % MODULUS = secrets.sum % MODULUS := by
  have hM : MODULUS = 4294967296 := by decide
  induction h with
  | nil => rfl
  | cons hvσ htail ih =>
    simp only [List.map_cons, List.sum_cons]
    have h2 := hvσ.2
    rw [hM] at h2 ih ⊢
    omega

/-- C7: additive linearity of aggregation.  For a non-empty family of secrets
whose share vectors all have the same positive length and each sum to their
secret modulo `2^32` (which `create_shares` guarantees), `add_shares` succeeds
and `reconstruct_secret` of the componentwise sum returns the sum of the
secrets modulo `2^32`. -/
theorem add_shares_reconstruct_linear (secrets : List Int) (vecs : List (List Int)) (m : Nat)
    (hm : 0 < m) (hne : secrets ≠ [])
    (h : List.Forall₂ (fun v σ => σ.length = m ∧ σ.sum % MODULUS = v) secrets vecs) :
    ∃ agg, add_shares vecs = Except.ok agg ∧
      reconstruct_secret agg = Except.ok (secrets.sum % MODULUS) := by
  have hlens := forall₂_lengths secrets vecs m h
  have hsums := forall₂_sums secrets vecs m h
  obtain ⟨first, rest, rfl⟩ : ∃ f r, vecs = f :: r := by
    cases h with
    | nil => exact absurd rfl hne
    | cons _ _ => exact ⟨_, _, rfl⟩
  have hflen : first.length = m := hlens first (List.mem_cons_self _ _)
  have hcond : ((first :: rest).all (fun s => decide (s.length = first.length))) = true := by
    simp only [List.all_eq_true, decide_eq_true_eq]
    intro s hs
    rw [hlens s hs, hflen]
  have hok : add_shares (first :: rest) = Except.ok ((List.range first.length).map
      (fun i => ((first :: rest).map (fun s => s.getD i 0)).sum % MODULUS)) := by
    simp only [add_shares]
    rw [if_pos hcond]
  refine ⟨_, hok, ?_⟩
  · set agg := (List.range first.length).map
      (fun i => ((first :: rest).map (fun s => s.getD i 0)).sum % MODULUS) with hagg
    have hlen : agg.length = m := by
      rw [hagg, List.length_map, List.length_range, hflen]
    have hne2 : agg ≠ [] := by
      intro hcontra
      rw [hcontra] at hlen
      simp at hlen
      omega
    rw [reconstruct_secret_ne_nil agg hne2]
    congr 1
    have e1 : agg = ((List.range first.length).map
        (fun i => ((first :: rest).map (fun s => s.getD i 0)).sum)).map
          (fun x => x % MODULUS) := by
      rw [hagg, List.map_map]
      rfl
    rw [e1, sum_map_emod, sum_sum_comm]
    have e2 : (first :: rest).map
        (fun σ => ((List.range first.length).map (fun i => σ.getD i 0)).sum)
        = (first :: rest).map List.sum := by
      apply List.map_congr_left
      intro σ hσ
      have : σ.length = first.length := by rw [hlens σ hσ, hflen]
      rw [← this, map_getD_range]
    rw [e2, hsums]

/-- Witness for C7 with secrets `[3, 5]` and share vectors `[[1,2,0], [2,3,0]]`. -/
theorem add_shares_reconstruct_linear_witness :
    ∃ agg, add_shares [[1, 2, 0], [2, 3, 0]] = Except.ok agg ∧
      reconstruct_secret agg = Except.ok (([3, 5] : List Int).sum % MODULUS) :=
  add_shares_reconstruct_linear [3, 5] [[1, 2, 0], [2, 3, 0]] 3
    (by decide) (by decide)
    (List.Forall₂.cons ⟨rfl, by decide⟩
      (List.Forall₂.cons ⟨rfl, by decide⟩ List.Forall₂.nil))

end SecretSharing

/-- Python dict update `d[k] = v` on an insertion-ordered dict, embedded as an
association list: an existing key keeps its position and receives the new
value (last-writer-wins), a new key is appended at the end. -/
def dictInsert {α : Type} (m : List (String × α)) (k : String) (v : α) :
    List (String × α) :=
  if m.any (fun p => p.1 == k) then
    m.map (fun p => if p.1 == k then (k, v) else p)
  else m ++ [(k, v)]

/-- Python dict read `d.get(k)`. -/
def dictLookup {α : Type} (m : List (String × α)) (k : String) : Option α :=
  (m.find? (fun p => p.1 == k)).map (fun p => p.2)

/-- Python `del d[k]`. -/
def dictErase {α : Type} (m : List (String × α)) (k : String) : List (String × α) :=
  m.filter (fun p => !(p.1 == k))

/-- Embedding of the `SecureAggregation` object state
(src/formix/protocols/aggregation.py lines 11-17).  `received_shares` and
`partial_sums_from_other_nodes` are Python dicts, embedded as insertion-ordered
association lists. -/
structure SecureAggregation where
  comp_id : String
  min_participants : Nat
  heavy_node_uid : String
  heavy_nodes : List String
  received_shares : List (String × Int)
  partial_sums_from_other_nodes : List (String × Int)
deriving Repr, DecidableEq

namespace SecureAggregation

/-- The `SecureAggregation.__init__` constructor: both dicts start empty. -/
def mk0 (comp_id : String) (min_participants : Nat) (heavy_node_uid : String)
    (heavy_nodes : List String) : SecureAggregation :=
  ⟨comp_id, min_participants, heavy_node_uid, heavy_nodes, [], []⟩

/-- Embedding of `SecureAggregation.add_share` (aggregation.py lines 19-25):
`ValueError` unless `verify_share_range`, else last-writer-wins insert into
`received_shares`. -/
def add_share (a : SecureAggregation) (sender_uid : String) (share_value : Int) :
    Except String SecureAggregation :=
  if SecretSharing.verify_share_range share_value then
    Except.ok { a with
      received_shares := dictInsert a.received_shares sender_uid share_value }
  else
    Except.error ("Invalid share value from " ++ sender_uid)

/-- Embedding of `SecureAggregation.can_aggregate` (aggregation.py lines
27-29): `len(received_shares) >= min_participants`. -/
def can_aggregate (a : SecureAggregation) : Bool :=
  decide (a.received_shares.length ≥ a.min_participants)

/-- Embedding of `SecureAggregation.compute_partial_sum` (aggregation.py lines
37-45): `0` when no shares were received, else the sum of the stored share
values modulo `2^32`. -/
def compute_partial_sum (a : SecureAggregation) : Int :=
  if a.received_shares.isEmpty then 0
  else ((a.received_shares.map Prod.snd).sum) % SecretSharing.MODULUS

/-- Embedding of `SecureAggregation.get_heavy_node_position` (aggregation.py
lines 47-52): Python `list.index`, raising `ValueError` when the uid is
absent. -/
def get_heavy_node_position (a : SecureAggregation) : Except String Nat :=
  if a.heavy_node_uid ∈ a.heavy_nodes then
    Except.ok (a.heavy_nodes.findIdx (fun x => x == a.heavy_node_uid))
  else
    Except.error ("Heavy node " ++ a.heavy_node_uid ++ " not found in heavy nodes list")

/-- Embedding of `SecureAggregation.is_primary_heavy_node` (aggregation.py
lines 54-56): position 0 in the `heavy_nodes` list. -/
def is_primary_heavy_node (a : SecureAggregation) : Except String Bool :=
  (get_heavy_node_position a).map (fun p => p == 0)

/-- Embedding of `SecureAggregation.get_total_participants` (aggregation.py
lines 105-109): the local count `len(received_shares)`. -/
def get_total_participants (a : SecureAggregation) : Nat :=
  a.received_shares.length

/-- Embedding of `SecureAggregation.meets_anonymity_threshold` (aggregation.py
lines 111-121). -/
def meets_anonymity_threshold (a : SecureAggregation) : Bool :=
  decide (a.get_total_participants ≥ a.min_participants)

/-- Python float `%` with a positive divisor, `a % b = a - b * floor(a / b)`,
embedded exactly over the rationals. -/
def pymod (a b : ℚ) : ℚ := a - b * ⌊a / b⌋

/-- Embedding of the static `SecureAggregation.compute_average`
(aggregation.py lines 134-159) over exact rationals: `ValueError` when
`num_participants == 0`; otherwise division `total_sum / num_participants`,
replaced by `average % 101` when the quotient exceeds 100. -/
def compute_average (total_sum : Int) (num_participants : Int) : Except String ℚ :=
  if num_participants = 0 then
    Except.error "Cannot compute average with 0 participants"
  else
    let average : ℚ := (total_sum : ℚ) / (num_participants : ℚ)
    if average > 100 then Except.ok (pymod average 101) else Except.ok average

lemma pymod_lt (a : ℚ) : pymod a 101 < 101 := by
  unfold pymod
  have h2 : a / 101 < ⌊a / 101⌋ + 1 := Int.lt_floor_add_one _
  have h3 : a < (⌊a / 101⌋ + 1) * 101 := by
    have := (div_lt_iff₀ (by norm_num : (0 : ℚ) < 101)).mp h2
    linarith
  linarith

/-- C10: `compute_average` errors exactly when `num_participants = 0`;
otherwise it returns the quotient when it is at most 100 and the quotient
mod 101 when it exceeds 100, so the returned value never exceeds 101. -/
theorem compute_average_spec (total_sum num_participants : Int) :
    (num_participants = 0 → compute_average total_sum num_participants =
        Except.error "Cannot compute average with 0 participants") ∧
    (num_participants ≠ 0 →
      ((total_sum : ℚ) / num_participants ≤ 100 →
          compute_average total_sum num_participants =
            Except.ok ((total_sum : ℚ) / num_participants)) ∧
      ((total_sum : ℚ) / num_participants > 100 →
          compute_average total_sum num_participants =
            Except.ok (pymod ((total_sum : ℚ) / num_participants) 101)) ∧
      (∀ q, compute_average total_sum num_participants = Except.ok q → q ≤ 101)) := by
  refine ⟨fun h0 => by simp [compute_average, h0], fun h0 => ⟨?_, ?_, ?_⟩⟩
  · intro hle
    simp [compute_average, h0, not_lt.mpr hle]
  · intro hgt
    simp [compute_average, h0, hgt]
  · intro q hq
    simp only [compute_average, if_neg h0] at hq
    by_cases hgt : (total_sum : ℚ) / num_participants > 100
    · rw [if_pos hgt] at hq
      have := pymod_lt ((total_sum : ℚ) / num_participants)
      cases hq
      linarith
    · rw [if_neg hgt] at hq
      cases hq
      push_neg at hgt
      linarith

/-- Witness for C10 at `total_sum = 500`, `num_participants = 2` (quotient 250
exceeds 100, result is `250 % 101`). -/
theorem compute_average_spec_witness :
    compute_average 500 2 = Except.ok (pymod ((500 : ℚ) / 2) 101) ∧
      pymod ((500 : ℚ) / 2) 101 ≤ 101 := by
  have h := compute_average_spec 500 2
  have h2 := (h.2 (by norm_num)).2.1 (by norm_num)
  exact ⟨h2, (h.2 (by norm_num)).2.2 _ h2⟩

end SecureAggregation

namespace MessageProtocol

/-- Outcome of one HTTP POST attempt inside `MessageProtocol.send_message`
(src/formix/protocols/messaging.py lines 68-89): a 200 reply with a JSON
body, a reply with any other status code (logged, not returned), a connect
failure, a timeout, or any other exception. -/
inductive AttemptResult where
  | ok (body : String)
  | non200 (code : Nat) (text : String)
  | connectError
  | timeoutError
  | otherError (msg : String)
deriving Repr, DecidableEq

/-- `MessageProtocol.MAX_RETRIES` (messaging.py line 42). -/
def MAX_RETRIES : Nat := 3

/-- `MessageProtocol.RETRY_DELAY` in seconds (messaging.py line 43). -/
def RETRY_DELAY : Nat := 1

/-- Whether an attempt got a 200 reply: the only case in which the source's
loop body returns (`if response.status == 200`). -/
def isSuccess : AttemptResult → Bool
  | .ok _ => true
  | _ => false

/-- Body of a 200 reply. -/
def bodyOf : AttemptResult → String
  | .ok b => b
  | _ => ""

/-- The `ConnectionError` raised after the loop (messaging.py line 92); the
port interpolation of the source's f-string is elided. -/
def sendFailureMsg : String := "Failed to send message after 3 attempts"

/-- Trace of one `send_message` call: the value returned (`Except.error` is
the final `ConnectionError`), the number of attempts made, and the list of
backoff sleeps (in seconds) performed between attempts. -/
structure SendTrace where
  result : Except String String
  attemptsMade : Nat
  sleeps : List Nat
deriving Repr

/-- The retry loop of `send_message` over the attempt indices still to run
(messaging.py lines 68-92): an attempt answered with a 200 reply returns its
body at once; every other outcome — non-2xx reply, connect failure, timeout,
unexpected exception — falls through, sleeping `RETRY_DELAY * (attempt + 1)`
first unless this was the last attempt. -/
def sendAttempts (outcomes : Nat → AttemptResult) : List Nat → SendTrace
  | [] => ⟨Except.error sendFailureMsg, 0, []⟩
  | i :: rest =>
    if isSuccess (outcomes i) then
      ⟨Except.ok (bodyOf (outcomes i)), 1, []⟩
    else
      let tr := sendAttempts outcomes rest
      ⟨tr.result, tr.attemptsMade + 1,
        if rest.isEmpty then tr.sleeps else RETRY_DELAY * (i + 1) :: tr.sleeps⟩

/-- Embedding of `MessageProtocol.send_message` (messaging.py lines 45-92),
parameterized by the outcome of each attempt. -/
def send_message (outcomes : Nat → AttemptResult) : SendTrace :=
  sendAttempts outcomes (List.range MAX_RETRIES)

/-- C5 counterexample: an attempt that reaches the target and is answered
with a non-2xx reply is retried.  With the first attempt answered `500` and
the second `200`, `send_message` makes a second attempt and returns the 200
body, where the claim requires no further attempt after the non-2xx reply. -/
theorem send_message_non2xx_retried_counterexample :
    send_message (fun i => if i = 0 then AttemptResult.non200 500 "err" else AttemptResult.ok "resp")
        = ⟨Except.ok "resp", 2, [RETRY_DELAY * 1]⟩ ∧
      (2 : Nat) ≠ 1 := by
  constructor
  · rfl
  · decide

/-- C5 (amended): `send_message` retries every unsuccessful attempt —
connection failures, timeouts, unexpected errors, and non-2xx replies alike —
making at most `MAX_RETRIES = 3` attempts with backoff
`RETRY_DELAY * (attempt + 1)` after each failed non-final attempt, returning
the body of the first 200 reply, and raising `ConnectionError` after 3 failed
attempts. -/
theorem send_message_retry_policy (outcomes : Nat → AttemptResult) (b : String) :
    (outcomes 0 = AttemptResult.ok b →
        send_message outcomes = ⟨Except.ok b, 1, []⟩) ∧
    (isSuccess (outcomes 0) = false → outcomes 1 = AttemptResult.ok b →
        send_message outcomes = ⟨Except.ok b, 2, [RETRY_DELAY * 1]⟩) ∧
    (isSuccess (outcomes 0) = false → isSuccess (outcomes 1) = false →
        outcomes 2 = AttemptResult.ok b →
        send_message outcomes = ⟨Except.ok b, 3, [RETRY_DELAY * 1, RETRY_DELAY * 2]⟩) ∧
    (isSuccess (outcomes 0) = false → isSuccess (outcomes 1) = false →
        isSuccess (outcomes 2) = false →
        send_message outcomes =
          ⟨Except.error sendFailureMsg, 3, [RETRY_DELAY * 1, RETRY_DELAY * 2]⟩) := by
  have hR : send_message outcomes = sendAttempts outcomes [0, 1, 2] := rfl
  refine ⟨?_, ?_, ?_, ?_⟩
  · intro h0
    rw [hR]
    simp only [sendAttempts]
    rw [h0]
    simp [isSuccess, bodyOf]
  · intro h0 h1
    rw [hR]
    simp only [sendAttempts]
    rw [h0, h1]
    simp [isSuccess, bodyOf]
  · intro h0 h1 h2
    rw [hR]
    simp only [sendAttempts]
    rw [h0, h1, h2]
    simp [isSuccess, bodyOf]
  · intro h0 h1 h2
    rw [hR]
    simp only [sendAttempts]
    rw [h0, h1, h2]
    simp

/-- Witness for the amended C5 with all three attempts timing out. -/
theorem send_message_retry_policy_witness :
    send_message (fun _ => AttemptResult.timeoutError) =
      ⟨Except.error sendFailureMsg, 3, [RETRY_DELAY * 1, RETRY_DELAY * 2]⟩ :=
  (send_message_retry_policy (fun _ => AttemptResult.timeoutError) "").2.2.2
    rfl rfl rfl

end MessageProtocol

namespace NetworkDatabase

/-- One row of the registry's `computations` table
(src/formix/db/database.py lines 196-217); only the columns the claims
concern are modelled.  `completed_at_set` records whether the
`completed_at` timestamp column has been written. -/
structure ComputationRow where
  comp_id : String
  status : String
  result : Option Int
  participants_count : Option Nat
  completed_at_set : Bool
deriving Repr, DecidableEq

/-- The `computations` table, keyed by its primary key `comp_id`. -/
abbrev Registry := List ComputationRow

/-- Embedding of `NetworkDatabase.add_computation` (database.py lines
328-359): INSERT with `status` defaulting to `'pending'`; any failure (in
particular a primary-key violation) is caught and reported as `False` with
the table unchanged. -/
def add_computation (reg : Registry) (comp_id : String) : Registry × Bool :=
  if reg.any (fun r => r.comp_id == comp_id) then (reg, false)
  else (reg ++ [⟨comp_id, "pending", none, none, false⟩], true)

/-- The column assignments of `update_computation_result`'s UPDATE:
`status = 'completed'`, `result`, `participants_count`, `completed_at`. -/
def completeRow (r : ComputationRow) (res : Int) (cnt : Nat) : ComputationRow :=
  { r with status := "completed", result := some res,
           participants_count := some cnt, completed_at_set := true }

/-- Embedding of `NetworkDatabase.update_computation_result` (database.py
lines 361-378): `UPDATE computations SET status = 'completed', result = ?,
participants_count = ?, completed_at = CURRENT_TIMESTAMP WHERE comp_id = ?`,
unconditional on the row's previous status. -/
def update_computation_result (reg : Registry) (comp_id : String)
    (result : Int) (participants_count : Nat) : Registry :=
  reg.map (fun r =>
    if r.comp_id == comp_id then completeRow r result participants_count else r)

/-- node.py calls `self.network_db.update_computation_status(comp_id, status,
reason)` on every failure path (node.py lines 250, 269, 325, 462, 487, 494),
but `NetworkDatabase` (database.py lines 155-395) defines no such method: in
Python the attribute lookup raises `AttributeError` before any SQL runs, so
these calls raise without modifying the registry.  The arguments are kept for
fidelity to the call sites. -/
def missingStatusMethodMsg : String :=
  "AttributeError: NetworkDatabase object has no attribute update_computation_status"

def update_computation_status (reg : Registry)
    (comp_id status reason : String) : Except String Registry :=
  Except.error missingStatusMethodMsg

/-- The `status` column of a computation row, `None` when the comp_id is
absent. -/
def statusOf (reg : Registry) (comp_id : String) : Option String :=
  (reg.find? (fun r => r.comp_id == comp_id)).map (fun r => r.status)

/-- The operations of `NetworkDatabase` that write the `computations` table.
The remaining methods (`add_node`, `remove_node`, `get_node`,
`get_all_nodes`, `get_nodes_by_type`, `get_next_available_port`,
`get_computation_result`) read, or write only the `users` table, and
`update_computation_status` does not exist (see above), so no other method
can change a computation's status. -/
inductive RegistryOp where
  | addComputation (comp_id : String)
  | updateComputationResult (comp_id : String) (result : Int) (participants_count : Nat)
deriving Repr

/-- Effect of a computations-table operation on the registry. -/
def applyOp (reg : Registry) : RegistryOp → Registry
  | .addComputation cid => (add_computation reg cid).1
  | .updateComputationResult cid r c => update_computation_result reg cid r c

lemma statusOf_cons_hit (r : ComputationRow) (t : Registry) (cid : String)
    (h : (r.comp_id == cid) = true) : statusOf (r :: t) cid = some r.status := by
  simp [statusOf, List.find?_cons, h]

lemma statusOf_cons_miss (r : ComputationRow) (t : Registry) (cid : String)
    (h : (r.comp_id == cid) = false) : statusOf (r :: t) cid = statusOf t cid := by
  simp [statusOf, List.find?_cons, h]

lemma statusOf_update_self (reg : Registry) (cid : String) (res : Int) (cnt : Nat) :
    statusOf (update_computation_result reg cid res cnt) cid
      = (statusOf reg cid).map (fun _ => "completed") := by
  induction reg with
  | nil => rfl
  | cons r t ih =>
    by_cases h : (r.comp_id == cid) = true
    · have hcr : ((completeRow r res cnt).comp_id == cid) = true := h
      have e : update_computation_result (r :: t) cid res cnt
          = completeRow r res cnt :: update_computation_result t cid res cnt := by
        simp only [update_computation_result, List.map_cons]
        rw [if_pos h]
      rw [e, statusOf_cons_hit (completeRow r res cnt) _ _ hcr,
        statusOf_cons_hit r _ _ h]
      rfl
    · have hb : (r.comp_id == cid) = false := by simpa using h
      have e : update_computation_result (r :: t) cid res cnt
          = r :: update_computation_result t cid res cnt := by
        simp only [update_computation_result, List.map_cons]
        rw [if_neg (by simp [hb])]
      rw [e, statusOf_cons_miss _ _ _ hb, statusOf_cons_miss _ _ _ hb]
      exact ih

lemma statusOf_update_other (reg : Registry) (cid cid' : String) (res : Int) (cnt : Nat)
    (h : cid' ≠ cid) :
    statusOf (update_computation_result reg cid' res cnt) cid = statusOf reg cid := by
  induction reg with
  | nil => rfl
  | cons r t ih =>
    by_cases hr : (r.comp_id == cid') = true
    · have hbc : (r.comp_id == cid) = false := by
        simp only [beq_iff_eq] at hr
        simp [hr, h]
      have hbcr : ((completeRow r res cnt).comp_id == cid) = false := hbc
      have e : update_computation_result (r :: t) cid' res cnt
          = completeRow r res cnt :: update_computation_result t cid' res cnt := by
        simp only [update_computation_result, List.map_cons]
        rw [if_pos hr]
      rw [e, statusOf_cons_miss (completeRow r res cnt) _ _ hbcr,
        statusOf_cons_miss r _ _ hbc]
      exact ih
    · have hb : (r.comp_id == cid') = false := by simpa using hr
      have e : update_computation_result (r :: t) cid' res cnt
          = r :: update_computation_result t cid' res cnt := by
        simp only [update_computation_result, List.map_cons]
        rw [if_neg (by simp [hb])]
      by_cases hc : (r.comp_id == cid) = true
      · rw [e, statusOf_cons_hit _ _ _ hc, statusOf_cons_hit _ _ _ hc]
      · have hc' : (r.comp_id == cid) = false := by simpa using hc
        rw [e, statusOf_cons_miss _ _ _ hc', statusOf_cons_miss _ _ _ hc']
        exact ih

lemma statusOf_append_single (reg : Registry) (row : ComputationRow) (cid : String) :
    statusOf (reg ++ [row]) cid = statusOf reg cid ∨
      (statusOf reg cid = none ∧
        statusOf (reg ++ [row]) cid
          = (if row.comp_id == cid then some row.status else none)) := by
  induction reg with
  | nil =>
    right
    refine ⟨rfl, ?_⟩
    by_cases h : (row.comp_id == cid) = true
    · simp [statusOf, List.find?_cons, h]
    · have hb : (row.comp_id == cid) = false := by simpa using h
      simp [statusOf, List.find?_cons, hb]
  | cons r t ih =>
    by_cases h : (r.comp_id == cid) = true
    · left
      rw [List.cons_append, statusOf_cons_hit _ _ _ h, statusOf_cons_hit _ _ _ h]
    · have hb : (r.comp_id == cid) = false := by simpa using h
      rw [List.cons_append, statusOf_cons_miss _ _ _ hb, statusOf_cons_miss _ _ _ hb]
      exact ih

/-- C4 counterexample: applying the result-writing operation to a computation
whose status is already the terminal `failed:insufficient_participants`
changes its status to `completed`, so a terminal status does not stay fixed
under the registry's operations as the claim states. -/
theorem terminal_status_overwritten_counterexample :
    statusOf (update_computation_result
        [⟨"c1", "failed:insufficient_participants", none, none, false⟩] "c1" 5 1) "c1"
      = some "completed" ∧
    some "completed" ≠ some "failed:insufficient_participants" := by
  constructor
  · rfl
  · decide

/-- C4 (amended): `update_computation_result` unconditionally sets the status
of the named computation to `completed`, overwriting even a terminal
`failed:*` status.  What does hold: the `completed` status is stable under
every computations-table operation of `NetworkDatabase`, and every operation
leaves a computation's status unchanged or sets it to `pending` (fresh
insert) or `completed` — no operation can write a `failed` status. -/
theorem completed_status_stable (reg : Registry) (cid : String) (op : RegistryOp) :
    (statusOf reg cid = some "completed" →
        statusOf (applyOp reg op) cid = some "completed") ∧
    (statusOf (applyOp reg op) cid = statusOf reg cid ∨
      statusOf (applyOp reg op) cid = some "pending" ∨
      statusOf (applyOp reg op) cid = some "completed") := by
  cases op with
  | addComputation cid' =>
    simp only [applyOp, add_computation]
    by_cases hany : reg.any (fun r => r.comp_id == cid')
    · rw [if_pos hany]
      exact ⟨fun h => h, Or.inl rfl⟩
    · rw [if_neg hany]
      rcases statusOf_append_single reg ⟨cid', "pending", none, none, false⟩ cid with
        heq | ⟨hnone, heq⟩
      · exact ⟨fun h => heq.trans h, Or.inl heq⟩
      · constructor
        · intro h
          rw [hnone] at h
          exact absurd h (by simp)
        · by_cases hc : cid' = cid
          · right; left
            rw [heq]
            simp [hc]
          · left
            rw [heq, hnone]
            simp [hc]
  | updateComputationResult cid' res cnt =>
    simp only [applyOp]
    by_cases hc : cid' = cid
    · subst hc
      rw [statusOf_update_self]
      constructor
      · intro h
        rw [h]
        rfl
      · cases hs : statusOf reg cid' with
        | none => left; simp
        | some s => right; right; simp
    · rw [statusOf_update_other reg cid cid' res cnt hc]
      exact ⟨fun h => h, Or.inl rfl⟩

/-- Witness for the amended C4: rewriting the result of an already-completed
computation leaves its status `completed`. -/
theorem completed_status_stable_witness :
    statusOf (applyOp [⟨"c1", "completed", some 5, some 1, true⟩]
        (RegistryOp.updateComputationResult "c1" 9 2)) "c1" = some "completed" :=
  (completed_status_stable [⟨"c1", "completed", some 5, some 1, true⟩] "c1"
    (RegistryOp.updateComputationResult "c1" 9 2)).1 rfl

end NetworkDatabase

namespace HeavyNode

/-- The fields of a computation descriptor that `HeavyNode.handle_computation`
reads (node.py lines 176-216). -/
structure ComputationDescriptor where
  comp_id : String
  heavy_node_1 : String
  heavy_node_2 : String
  heavy_node_3 : String
  min_participants : Nat
deriving Repr, DecidableEq

/-- The per-node state of a `HeavyNode` that the message handlers mutate:
`active_computations` (comp_id → SecureAggregation dict) and
`processed_computations` (a set, modelled as a duplicate-free list) are the
in-memory attributes of the node object (node.py lines 171-174);
`db_received_shares` is the durable `received_shares` table of the node's own
database (database.py lines 419-427), with composite primary key
`(comp_id, sender_uid)`. -/
structure HeavyNodeState where
  uid : String
  active_computations : List (String × SecureAggregation)
  processed_computations : List String
  db_received_shares : List (String × String × Int)
deriving Repr, DecidableEq

/-- Embedding of `NodeDatabase.add_share` (database.py lines 479-492):
`INSERT OR REPLACE` on the composite key `(comp_id, sender_uid)`, with no
validation of the share value. -/
def dbAddShare (t : List (String × String × Int)) (comp_id sender_uid : String)
    (share_value : Int) : List (String × String × Int) :=
  if t.any (fun r => r.1 == comp_id && r.2.1 == sender_uid) then
    t.map (fun r =>
      if r.1 == comp_id && r.2.1 == sender_uid then (comp_id, sender_uid, share_value)
      else r)
  else t ++ [(comp_id, sender_uid, share_value)]

/-- Embedding of `HeavyNode.handle_computation` (node.py lines 176-216).  The
comp_id is added to `processed_computations` BEFORE the membership check
against the descriptor's coordinator UIDs.  Sending the init-confirmation,
waiting for confirmations, and scheduling the deadline task exchange messages
or create a timer but do not change the state modelled here. -/
def handle_computation (s : HeavyNodeState) (k : ComputationDescriptor) :
    HeavyNodeState :=
  if s.processed_computations.contains k.comp_id then s
  else
    let s1 := { s with processed_computations := s.processed_computations ++ [k.comp_id] }
    if s1.uid ∈ [k.heavy_node_1, k.heavy_node_2, k.heavy_node_3] then
      let agg := SecureAggregation.mk0 k.comp_id k.min_participants s1.uid
        [k.heavy_node_1, k.heavy_node_2, k.heavy_node_3]
      { s1 with active_computations := dictInsert s1.active_computations k.comp_id agg }
    else s1

/-- Reply of a message handler on the HTTP request channel, as produced by
`BaseNode.handle_message` (node.py lines 61-90): the 200 `status: ok` reply,
or the 500 `status: error` reply sent when a handler raises. -/
inductive HandlerReply where
  | okReply
  | errorReply (msg : String)
deriving Repr, DecidableEq

/-- Embedding of `HeavyNode.handle_share` (node.py lines 218-235).  A share
for a comp_id with no active computation is dropped with a warning (the
handler returns, so `handle_message` still answers 200 ok).  Otherwise the
share is first written to the durable `received_shares` table
(`await self.db.add_share`, no validation) and only then passed to
`SecureAggregation.add_share`, whose `ValueError` on an out-of-range value
propagates to `handle_message` and is answered as a 500 error reply — after
the durable write has already committed.  No deadline check appears
anywhere in the handler. -/
def handle_share (s : HeavyNodeState) (comp_id sender_uid : String)
    (share_value : Int) : HeavyNodeState × HandlerReply :=
  match dictLookup s.active_computations comp_id with
  | none => (s, HandlerReply.okReply)
  | some agg =>
    let db1 := dbAddShare s.db_received_shares comp_id sender_uid share_value
    let s1 := { s with db_received_shares := db1 }
    match agg.add_share sender_uid share_value with
    | Except.ok agg1 =>
      let a1 := dictInsert s1.active_computations comp_id agg1
      ({ s1 with active_computations := a1 }, HandlerReply.okReply)
    | Except.error e => (s1, HandlerReply.errorReply e)

/-- Outcome of one `HeavyNode._process_at_deadline` run. -/
inductive DeadlineOutcome where
  | noAggregator
  | insufficientFailure (err : String)
  | insufficientRecorded
  | revealInitiated
  | awaitingReveal
  | positionError (err : String)
deriving Repr, DecidableEq

/-- Embedding of `HeavyNode._process_at_deadline` (node.py lines 237-259),
covering everything up to the hand-off to `_initiate_reveal_process`.  With
an aggregator present and `can_aggregate()` false the code calls
`network_db.update_computation_status` — a method `NetworkDatabase` does not
define — so the call raises `AttributeError`: the task dies with the
registry unchanged and the aggregator still in `active_computations`
(`del self.active_computations[comp_id]` on node.py line 251 is never
reached; `insufficientRecorded` is the unreachable post-write path of the
source text).  With enough participants the primary proceeds to the reveal
process and a secondary merely logs and keeps waiting. -/
def process_at_deadline (s : HeavyNodeState) (reg : NetworkDatabase.Registry)
    (comp_id : String) :
    HeavyNodeState × NetworkDatabase.Registry × DeadlineOutcome :=
  match dictLookup s.active_computations comp_id with
  | none => (s, reg, DeadlineOutcome.noAggregator)
  | some agg =>
    if agg.can_aggregate = false then
      match NetworkDatabase.update_computation_status reg comp_id "failed"
          "Insufficient participants" with
      | Except.error e => (s, reg, DeadlineOutcome.insufficientFailure e)
      | Except.ok reg1 =>
        ({ s with active_computations := dictErase s.active_computations comp_id },
          reg1, DeadlineOutcome.insufficientRecorded)
    else
      match agg.is_primary_heavy_node with
      | Except.ok true => (s, reg, DeadlineOutcome.revealInitiated)
      | Except.ok false => (s, reg, DeadlineOutcome.awaitingReveal)
      | Except.error e => (s, reg, DeadlineOutcome.positionError e)

/-- Content of a coordinator's answer to a reveal request. -/
inductive RevealReqOutcome where
  | noAggregator (msg : String)
  | responded (partial_sum : Int) (participant_count : Nat)
deriving Repr, DecidableEq

/-- Embedding of `HeavyNode.handle_reveal_request` (node.py lines 379-414):
with no active computation the handler answers an error status; otherwise it
computes `compute_partial_sum()` and `len(received_shares)` from the shares
held at that moment and sends them in the `reveal_response`.  The requester
lookup and send after that do not change the computed values and are not
modelled.  The aggregator is neither removed nor marked: the computation
keeps accepting shares afterwards. -/
def handle_reveal_request (s : HeavyNodeState) (comp_id : String) :
    RevealReqOutcome :=
  match dictLookup s.active_computations comp_id with
  | none => RevealReqOutcome.noAggregator "No aggregator found"
  | some agg =>
    RevealReqOutcome.responded agg.compute_partial_sum agg.received_shares.length

end HeavyNode

lemma dictLookup_cons_hit {α : Type} (p : String × α) (t : List (String × α))
    (k : String) (h : (p.1 == k) = true) : dictLookup (p :: t) k = some p.2 := by
  simp [dictLookup, List.find?_cons, h]

lemma dictLookup_cons_miss {α : Type} (p : String × α) (t : List (String × α))
    (k : String) (h : (p.1 == k) = false) : dictLookup (p :: t) k = dictLookup t k := by
  simp [dictLookup, List.find?_cons, h]

lemma dictInsert_cons_miss {α : Type} (p : String × α) (t : List (String × α))
    (k : String) (v : α) (h : (p.1 == k) = false) :
    dictInsert (p :: t) k v = p :: dictInsert t k v := by
  by_cases ha : (t.any (fun q => q.1 == k)) = true
  · have hc1 : ((p :: t).any (fun q => q.1 == k)) = true := by
      simp [List.any_cons, ha]
    simp only [dictInsert, List.map_cons]
    rw [if_pos hc1, if_pos ha]
    simp [h]
  · have ha' : (t.any (fun q => q.1 == k)) = false := by
      simp only [Bool.not_eq_true] at ha
      exact ha
    have hc1 : ((p :: t).any (fun q => q.1 == k)) = false := by
      simp [List.any_cons, h, ha']
    simp only [dictInsert, List.cons_append]
    rw [if_neg (by simp [hc1]), if_neg (by simp [ha'])]

lemma dictLookup_dictInsert_self {α : Type} (m : List (String × α)) (k : String) (v : α) :
    dictLookup (dictInsert m k v) k = some v := by
  induction m with
  | nil => simp [dictInsert, dictLookup]
  | cons p t ih =>
    by_cases hp : (p.1 == k) = true
    · have hany : ((p :: t).any (fun q => q.1 == k)) = true := by
        simp [List.any_cons, hp]
      have e : dictInsert (p :: t) k v
          = (k, v) :: t.map (fun q => if q.1 == k then (k, v) else q) := by
        simp only [dictInsert, List.map_cons]
        rw [if_pos hany]
        simp [hp]
      rw [e, dictLookup_cons_hit _ _ _ (by simp)]
    · have hp' : (p.1 == k) = false := by simpa using hp
      rw [dictInsert_cons_miss _ _ _ _ hp', dictLookup_cons_miss _ _ _ hp']
      exact ih

namespace HeavyNode

/-- C9: `handle_computation` adds the comp_id to `processed_computations`
before the coordinator-membership check, so a heavy node not named in the
descriptor's coordinator triple ends with its aggregation state unchanged (in
particular none for the comp_id), the comp_id marked processed, and every
later delivery of a descriptor carrying an already-processed comp_id — even
one naming the node — is a no-op: the node can never initialize that
computation. -/
theorem processed_marked_before_membership_check (s : HeavyNodeState)
    (k : ComputationDescriptor)
    (hfresh : k.comp_id ∉ s.processed_computations)
    (hnoagg : dictLookup s.active_computations k.comp_id = none)
    (hnotin : s.uid ∉ [k.heavy_node_1, k.heavy_node_2, k.heavy_node_3]) :
    dictLookup (handle_computation s k).active_computations k.comp_id = none ∧
    k.comp_id ∈ (handle_computation s k).processed_computations ∧
    (∀ s2 : HeavyNodeState, ∀ k2 : ComputationDescriptor,
      k2.comp_id ∈ s2.processed_computations → handle_computation s2 k2 = s2) := by
  have e : handle_computation s k
      = { s with processed_computations := s.processed_computations ++ [k.comp_id] } := by
    simp [handle_computation, hfresh, hnotin]
  refine ⟨?_, ?_, ?_⟩
  · rw [e]
    exact hnoagg
  · rw [e]
    simp
  · intro s2 k2 h2
    simp [handle_computation, h2]

/-- A heavy node `h9` with empty state, and a descriptor for computation `c`
whose coordinator triple does not contain `h9`. -/
def c9State : HeavyNodeState := ⟨"h9", [], [], []⟩

def c9Desc : ComputationDescriptor := ⟨"c", "h1", "h2", "h3", 1⟩

/-- Witness for C9: `h9` handles a descriptor that does not name it, keeps no
aggregation state, marks `c` processed, and a re-delivery of the descriptor is
a no-op. -/
theorem processed_marked_before_membership_check_witness :
    dictLookup (handle_computation c9State c9Desc).active_computations "c" = none ∧
    "c" ∈ (handle_computation c9State c9Desc).processed_computations ∧
    handle_computation (handle_computation c9State c9Desc) c9Desc
      = handle_computation c9State c9Desc := by
  have h := processed_marked_before_membership_check c9State c9Desc
    (by simp [c9State]) rfl (by simp [c9State, c9Desc])
  exact ⟨h.1, h.2.1, h.2.2 _ c9Desc h.2.1⟩

/-- C8 (amended): delivering a share whose value lies outside `[0, 2^32)` for
an active computation is answered with an error on the request channel and
leaves the in-memory `received_shares` (and all other in-memory computation
state) unchanged — but the durable `received_shares` store HAS been updated
with the out-of-range value, because `handle_share` performs the durable
write before validation. -/
theorem invalid_share_rejected_after_db_write (s : HeavyNodeState)
    (comp_id sender_uid : String) (v : Int) (agg : SecureAggregation)
    (hagg : dictLookup s.active_computations comp_id = some agg)
    (hbad : SecretSharing.verify_share_range v = false) :
    (handle_share s comp_id sender_uid v).2
        = HandlerReply.errorReply ("Invalid share value from " ++ sender_uid) ∧
    (handle_share s comp_id sender_uid v).1.active_computations
        = s.active_computations ∧
    (handle_share s comp_id sender_uid v).1.processed_computations
        = s.processed_computations ∧
    (handle_share s comp_id sender_uid v).1.db_received_shares
        = dbAddShare s.db_received_shares comp_id sender_uid v := by
  have hadd : agg.add_share sender_uid v
      = Except.error ("Invalid share value from " ++ sender_uid) := by
    simp [SecureAggregation.add_share, hbad]
  simp [handle_share, hagg, hadd]

/-- A coordinator state for C8: node `h1`, active computation `c` with no
shares yet, empty durable store. -/
def c8State : HeavyNodeState :=
  ⟨"h1", [("c", SecureAggregation.mk0 "c" 1 "h1" ["h1", "h2", "h3"])], ["c"], []⟩

/-- C8 counterexample: delivering the out-of-range share `2^32` for `c` is
answered with an error, but the durable `received_shares` store now holds the
row `("c", "p1", 2^32)` where it was empty before — the coordinator's
computation state is not left entirely unchanged. -/
theorem invalid_share_mutates_db_counterexample :
    (handle_share c8State "c" "p1" (2 ^ 32)).2
        = HandlerReply.errorReply "Invalid share value from p1" ∧
    (handle_share c8State "c" "p1" (2 ^ 32)).1.db_received_shares
        = [("c", "p1", 2 ^ 32)] ∧
    c8State.db_received_shares = [] := by
  refine ⟨?_, ?_, rfl⟩ <;> rfl

/-- Witness for the amended C8, at the same out-of-range delivery. -/
theorem invalid_share_rejected_after_db_write_witness :
    (handle_share c8State "c" "p2" (-1)).2
        = HandlerReply.errorReply ("Invalid share value from " ++ "p2") ∧
    (handle_share c8State "c" "p2" (-1)).1.active_computations
        = c8State.active_computations ∧
    (handle_share c8State "c" "p2" (-1)).1.processed_computations
        = c8State.processed_computations ∧
    (handle_share c8State "c" "p2" (-1)).1.db_received_shares
        = dbAddShare c8State.db_received_shares "c" "p2" (-1) :=
  invalid_share_rejected_after_db_write c8State "c" "p2" (-1)
    (SecureAggregation.mk0 "c" 1 "h1" ["h1", "h2", "h3"]) rfl rfl

/-- A primary-coordinator state for C1: node `h1` is `heavy_node_1` of
computation `c` (`min_participants = 1`) and holds zero shares at the
deadline. -/
def c1State : HeavyNodeState :=
  ⟨"h1", [("c", SecureAggregation.mk0 "c" 1 "h1" ["h1", "h2", "h3"])], ["c"], []⟩

/-- A registry in which computation `c` is still `pending`. -/
def c1Reg : NetworkDatabase.Registry := [⟨"c", "pending", none, none, false⟩]

/-- C1 (code bug): at the deadline of computation `c` with
`min_participants = 1`, the primary coordinator `h1` holding zero shares
takes the insufficient-participants branch, but the failure write
`network_db.update_computation_status` (node.py line 250) raises
`AttributeError` — `NetworkDatabase` defines no such method — so the task
dies: the registry still holds status `pending` (no
`failed:insufficient_participants` terminal state and no failure row is ever
recorded) and the aggregation state is not removed. -/
theorem deadline_insufficient_failure_not_recorded :
    process_at_deadline c1State c1Reg "c"
      = (c1State, c1Reg,
          DeadlineOutcome.insufficientFailure NetworkDatabase.missingStatusMethodMsg) ∧
    NetworkDatabase.statusOf c1Reg "c" = some "pending" ∧
    dictLookup c1State.active_computations "c"
      = some (SecureAggregation.mk0 "c" 1 "h1" ["h1", "h2", "h3"]) := by
  refine ⟨rfl, rfl, rfl⟩

/-- A secondary-coordinator state for C6: node `h2` is `heavy_node_2` of
computation `c` (`min_participants = 1`) and holds zero shares at the
deadline. -/
def c6State : HeavyNodeState :=
  ⟨"h2", [("c", SecureAggregation.mk0 "c" 1 "h2" ["h1", "h2", "h3"])], ["c"], []⟩

def c6Reg : NetworkDatabase.Registry := [⟨"c", "pending", none, none, false⟩]

/-- C6 counterexample: at its deadline a SECONDARY coordinator (position 1,
not the primary) whose local share count is below `min_participants` takes
the insufficient-participants failure branch itself — attempting the registry
failure write, which raises `AttributeError` — instead of proceeding to await
the reveal, so the threshold check is not confined to the primary and the
primary's check is not the sole decider. -/
theorem secondary_enforces_threshold_counterexample :
    (SecureAggregation.mk0 "c" 1 "h2" ["h1", "h2", "h3"]).is_primary_heavy_node
        = Except.ok false ∧
    process_at_deadline c6State c6Reg "c"
      = (c6State, c6Reg,
          DeadlineOutcome.insufficientFailure NetworkDatabase.missingStatusMethodMsg) := by
  refine ⟨rfl, rfl⟩

/-- C6 (amended): `_process_at_deadline` checks `can_aggregate()` on every
coordinator of the computation, primary and secondary alike: whenever the
local aggregation state has fewer shares than `min_participants`, the handler
takes the insufficient-participants failure branch and attempts the registry
failure write, which raises `AttributeError` (the method does not exist),
leaving the registry and the node state unchanged.  Threshold enforcement is
therefore not confined to the primary. -/
theorem deadline_threshold_check_role_independent (s : HeavyNodeState)
    (reg : NetworkDatabase.Registry) (comp_id : String) (agg : SecureAggregation)
    (hagg : dictLookup s.active_computations comp_id = some agg)
    (hbelow : agg.can_aggregate = false) :
    process_at_deadline s reg comp_id
      = (s, reg,
          DeadlineOutcome.insufficientFailure NetworkDatabase.missingStatusMethodMsg) := by
  simp [process_at_deadline, hagg, hbelow, NetworkDatabase.update_computation_status]

/-- Witness for the amended C6 on a primary state (`h1` at position 0,
`min_participants = 2`, zero shares), showing the branch is role-independent. -/
theorem deadline_threshold_check_role_independent_witness :
    process_at_deadline
        ⟨"h1", [("c", SecureAggregation.mk0 "c" 2 "h1" ["h1", "h2", "h3"])], ["c"], []⟩
        c6Reg "c"
      = (⟨"h1", [("c", SecureAggregation.mk0 "c" 2 "h1" ["h1", "h2", "h3"])], ["c"], []⟩,
          c6Reg,
          DeadlineOutcome.insufficientFailure NetworkDatabase.missingStatusMethodMsg) :=
  deadline_threshold_check_role_independent
    ⟨"h1", [("c", SecureAggregation.mk0 "c" 2 "h1" ["h1", "h2", "h3"])], ["c"], []⟩
    c6Reg "c" (SecureAggregation.mk0 "c" 2 "h1" ["h1", "h2", "h3"]) rfl rfl

/-- A secondary-coordinator state for C3: node `h2` holds one share
`("p1", 10)` for computation `c` when the deadline fires. -/
def c3Agg : SecureAggregation :=
  ⟨"c", 1, "h2", ["h1", "h2", "h3"], [("p1", 10)], []⟩

def c3State : HeavyNodeState := ⟨"h2", [("c", c3Agg)], ["c"], [("c", "p1", 10)]⟩

def c3Reg : NetworkDatabase.Registry := [⟨"c", "pending", none, none, false⟩]

/-- C3 counterexample: the deadline fires on secondary `h2` for `c` with one
share (partial sum 10, the handler merely logs and waits); a share from `p2`
delivered AFTER the deadline tick is still admitted, and the later reveal
response reports partial sum 15 over 2 contributors — the partial sum the
coordinator reports is changed by the post-deadline share. -/
theorem late_share_changes_reported_partial_sum_counterexample :
    process_at_deadline c3State c3Reg "c"
        = (c3State, c3Reg, DeadlineOutcome.awaitingReveal) ∧
    handle_reveal_request c3State "c" = RevealReqOutcome.responded 10 1 ∧
    (handle_share c3State "c" "p2" 5).2 = HandlerReply.okReply ∧
    handle_reveal_request (handle_share c3State "c" "p2" 5).1 "c"
        = RevealReqOutcome.responded 15 2 ∧
    (15 : Int) ≠ 10 := by
  refine ⟨rfl, rfl, rfl, rfl, by decide⟩

/-- C3 (amended): `handle_share` performs no deadline check at all — a share
is admitted whenever the comp_id still has an active aggregation state (which
a secondary does after its deadline tick, and the primary during its reveal
window), and the partial sum a coordinator reports at reveal time is computed
from the shares it holds at that moment, post-deadline arrivals included;
only a share arriving when the aggregation state is gone is dropped. -/
theorem share_admission_ignores_deadline (s : HeavyNodeState)
    (comp_id sender_uid : String) (v : Int) (agg : SecureAggregation)
    (hagg : dictLookup s.active_computations comp_id = some agg)
    (hok : SecretSharing.verify_share_range v = true) :
    dictLookup (handle_share s comp_id sender_uid v).1.active_computations comp_id
      = some { agg with received_shares := dictInsert agg.received_shares sender_uid v } ∧
    handle_reveal_request (handle_share s comp_id sender_uid v).1 comp_id
      = RevealReqOutcome.responded
          ({ agg with received_shares := dictInsert agg.received_shares sender_uid v }).compute_partial_sum
          (dictInsert agg.received_shares sender_uid v).length := by
  have hadd : agg.add_share sender_uid v
      = Except.ok { agg with received_shares := dictInsert agg.received_shares sender_uid v } := by
    simp [SecureAggregation.add_share, hok]
  have hlook : dictLookup (handle_share s comp_id sender_uid v).1.active_computations comp_id
      = some { agg with received_shares := dictInsert agg.received_shares sender_uid v } := by
    simp only [handle_share, hagg, hadd]
    exact dictLookup_dictInsert_self _ _ _
  refine ⟨hlook, ?_⟩
  simp only [handle_reveal_request, hlook]

/-- Witness for the amended C3, admitting `("p2", 5)` into `c3State` after
its deadline. -/
theorem share_admission_ignores_deadline_witness :
    dictLookup (handle_share c3State "c" "p2" 5).1.active_computations "c"
      = some { c3Agg with received_shares := dictInsert c3Agg.received_shares "p2" 5 } ∧
    handle_reveal_request (handle_share c3State "c" "p2" 5).1 "c"
      = RevealReqOutcome.responded
          ({ c3Agg with received_shares := dictInsert c3Agg.received_shares "p2" 5 }).compute_partial_sum
          (dictInsert c3Agg.received_shares "p2" 5).length :=
  share_admission_ignores_deadline c3State "c" "p2" 5 c3Agg rfl rfl

end HeavyNode

end Formix
